import Mathlib

/-!
Verification of the AutoCode execution and protocol layer.

This file gives a shallow Lean embedding of the two core components of the
repository and proves the specified properties about them:

* src/autocode/julia_runner.py — the persistent single-flight worker runner
  (class PersistentJuliaRunner): process lifecycle, payload wrapping,
  the marker-based reader protocol and the timeout path.

* src/autocode/mcp_autocode_server.py — the line-delimited JSON-RPC server
  (class AutoCodeMCPServer): request dispatch, tool validation, streaming
  sessions, cancellation, the serve loop and the output writer.

Python strings are modelled as lists of characters, JSON values as the
inductive type JVal below, dictionaries as association lists in insertion
order, and thread-level events (the reader thread finishing before the
timeout, a streaming worker finishing) as explicit parameters or event
traces.  Python standard-library collaborators that the code calls but the
repository does not define (json parsing, base64 decoding) are abstracted
as function parameters; base64 encoding is implemented concretely because
properties about its output shape are claimed.
-/

namespace AutoCode

/-- JSON values as decoded by json.loads, with arrays and objects
represented as cons chains so that equality is decidable by evaluation.
Object fields keep insertion order, matching Python dictionaries. -/
inductive JVal
  | null
  | bool (b : Bool)
  | num (n : Int)
  | str (s : String)
  | anil
  | acons (hd tl : JVal)
  | onil
  | ocons (key : String) (val tl : JVal)
deriving DecidableEq, Repr, Inhabited

/-- Builds a JSON array value from a Lean list. -/
def JVal.arrOf : List JVal → JVal
  | [] => .anil
  | x :: xs => .acons x (arrOf xs)

/-- Builds a JSON object value from a Lean list of key-value pairs. -/
def JVal.objOf : List (String × JVal) → JVal
  | [] => .onil
  | (k, v) :: kvs => .ocons k v (objOf kvs)

/-- Field lookup on a JSON object: the first binding of the key wins,
matching Python dictionaries (whose keys are unique).  Lookup on a
non-object value yields none. -/
def JVal.getField : JVal → String → Option JVal
  | .ocons k v tl, key => if k = key then some v else tl.getField key
  | _, _ => none

/-- Models the Python expression d.get(k) on a decoded JSON object:
a missing key yields None, modelled as JVal.null. -/
def jget (j : JVal) (k : String) : JVal := (j.getField k).getD JVal.null

/-- Python truthiness of a decoded JSON value, used for bool(...) and
for the x-or-default idiom: None, False, 0, empty string, empty array and
empty object are falsy, everything else is truthy. -/
def truthy : JVal → Bool
  | .null => false
  | .bool b => b
  | .num n => decide (n ≠ 0)
  | .str s => !s.isEmpty
  | .anil => false
  | .acons _ _ => true
  | .onil => false
  | .ocons _ _ _ => true

/-- Python str() of a decoded JSON value as interpolated into f-string
error messages.  Scalar cases are exact; compound values are abstracted
since no claim depends on their printed form. -/
def pyStr : JVal → String
  | .null => "None"
  | .bool true => "True"
  | .bool false => "False"
  | .num n => toString n
  | .str s => s
  | _ => "<value>"

/-- The ASCII single-quote character used by the f-string error messages
of the source. -/
def sq : String := String.singleton (Char.ofNat 39)

/-- True exactly on JSON arrays: models isinstance(req, list) on a value
decoded by json.loads. -/
def is_arr : JVal → Bool
  | .anil => true
  | .acons _ _ => true
  | _ => false

namespace JuliaRunner

/-- The marker token "<<<RESULT>>>" (module constant RESULT_MARKER). -/
def RESULT_MARKER : List Char := ['<','<','<','R','E','S','U','L','T','>','>','>']

/-- The marker token "<<<ERROR>>>" (module constant ERROR_MARKER). -/
def ERROR_MARKER : List Char := ['<','<','<','E','R','R','O','R','>','>','>']

/-- The observable state of the worker subprocess handle held in
self-dot-proc: alive means poll() returns None. -/
structure ProcState where
  alive : Bool
deriving DecidableEq, Repr

/-- The runner state: the optional subprocess handle.  The stdin and
stdout stream handles always accompany a live Popen object and are not
modelled separately. -/
structure RunnerState where
  proc : Option ProcState
deriving DecidableEq, Repr

/-- Embeds PersistentJuliaRunner._start_process.  The source returns
immediately whenever self._proc is not None — even when that handle
refers to a subprocess that has already exited — and otherwise writes the
bootstrap script and launches a fresh live worker. -/
def start_process (s : RunnerState) : RunnerState :=
  if s.proc.isSome then s else { proc := some { alive := true } }

/-- Embeds PersistentJuliaRunner.is_alive: the handle exists and
poll() is None. -/
def is_alive (s : RunnerState) : Bool :=
  match s.proc with
  | some p => p.alive
  | none => false

/-- Embeds the restart attempt at the top of eval:
if not self.is_alive(): self._start_process(). -/
def restart_attempt (s : RunnerState) : RunnerState :=
  if is_alive s then s else start_process s

/-- UTF-8 encoding of one character, as performed by str.encode. -/
def utf8Char (c : Char) : List Nat :=
  if c.toNat < 128 then [c.toNat]
  else if c.toNat < 2048 then
    [192 + c.toNat / 64, 128 + c.toNat % 64]
  else if c.toNat < 65536 then
    [224 + c.toNat / 4096, 128 + c.toNat / 64 % 64, 128 + c.toNat % 64]
  else
    [240 + c.toNat / 262144, 128 + c.toNat / 4096 % 64,
      128 + c.toNat / 64 % 64, 128 + c.toNat % 64]

/-- UTF-8 encoding of a string (a list of characters) into bytes. -/
def utf8Encode (s : List Char) : List Nat := s.flatMap utf8Char

/-- The standard base64 alphabet. -/
def b64alphabet : List Char :=
  "ABCDEFGHIJKLMNOPQRSTUVWXYZabcdefghijklmnopqrstuvwxyz0123456789+/".toList

/-- The base64 digit for a 6-bit value. -/
def b64char (k : Nat) : Char := b64alphabet.getD k 'A'

/-- Standard base64 encoding of a byte list, as computed by
base64.b64encode: three input bytes become four alphabet characters, a
final partial group is padded with the pad character. -/
def b64encode : List Nat → List Char
  | [] => []
  | [a] => [b64char (a / 4), b64char (a % 4 * 16), '=', '=']
  | [a, b] => [b64char (a / 4), b64char (a % 4 * 16 + b / 16), b64char (b % 16 * 4), '=']
  | a :: b :: c :: rest =>
      b64char (a / 4) :: b64char (a % 4 * 16 + b / 16) ::
        b64char (b % 16 * 4 + c / 64) :: b64char (c % 64) :: b64encode rest

/-- The literal text of the one-line wrapper before the base64 payload,
from the f-string in eval. -/
def b64_wrap_prefix : List Char := "let _b=Base64.base64decode(\"".toList

/-- The literal text of the one-line wrapper after the base64 payload,
from the f-string in eval: it decodes the payload and includes it as a
script in Main. -/
def b64_wrap_suffix : List Char :=
  "\"); _s=String(_b); include_string(Main, _s); end".toList

/-- Embeds the payload-shaping step of eval: an expression that contains
a newline or is longer than 800 characters is replaced by a one-line
wrapper around the base64 encoding of its UTF-8 bytes; any other
expression is passed through unchanged. -/
def send_expr (expr : List Char) : List Char :=
  if '\n' ∈ expr ∨ 800 < expr.length then
    b64_wrap_prefix ++ b64encode (utf8Encode expr) ++ b64_wrap_suffix
  else expr

/-- The single line written to the worker stdin:
proc.stdin.write(send_expr + newline). -/
def written_line (expr : List Char) : List Char := send_expr expr ++ ['\n']

/-- The terminal outcome recorded by the reader thread in result_holder:
ok is True for a RESULT marker and False for an ERROR marker, payload is
the decoded marker payload. -/
structure ReadOutcome where
  ok : Bool
  payload : List Char
deriving DecidableEq, Repr

/-- Embeds the decode step of the reader thread:
base64.b64decode(b64).decode(utf-8, errors=replace), with the literal
fallback string returned when decoding raises.  The stdlib decoder is
abstracted as the function parameter b64dec, with none modelling a raised
exception. -/
def decode_or (b64dec : List Char → Option (List Char)) (b : List Char) : List Char :=
  (b64dec b).getD "<base64 decode error>".toList

/-- Embeds the reader thread loop of eval: lines are scanned in order; a
line starting with RESULT_MARKER or ERROR_MARKER terminates the loop with
the decoded payload, and every earlier line is accumulated as captured
output in arrival order.  A stream that ends without a marker leaves the
outcome empty (the done flag is never set). -/
def reader (b64dec : List Char → Option (List Char)) :
    List (List Char) → List (List Char) → List (List Char) × Option ReadOutcome
  | [], logs => (logs, none)
  | s :: rest, logs =>
    if RESULT_MARKER.isPrefixOf s then
      (logs, some { ok := true, payload := decode_or b64dec (s.drop RESULT_MARKER.length) })
    else if ERROR_MARKER.isPrefixOf s then
      (logs, some { ok := false, payload := decode_or b64dec (s.drop ERROR_MARKER.length) })
    else reader b64dec rest (logs ++ [s])

/-- Embeds the return-value assembly of eval once the reader has finished:
captured output is preferred when it is non-empty and the marker was
RESULT; otherwise the pair (ok, payload) is returned.  The source guard
also tests isinstance(payload, str), which always holds once the done flag
is set, and the final expression str(payload or emptystring) equals the
payload for every string payload. -/
def eval_result (logs : List (List Char)) (o : ReadOutcome) : Bool × List Char :=
  if logs ≠ [] ∧ o.ok = true then (true, List.intercalate ['\n'] logs)
  else (o.ok, o.payload)

/-- The exact timeout message returned by eval in the source. -/
def timeout_message : List Char := "Timeout waiting for Julia response".toList

/-- Embeds the bounded wait at the end of eval.  The parameter readerDone
models whether done_evt.wait(timeout) returned True before the timeout
elapsed.  When it did and the done flag is set, the result is assembled
from the captured output and the marker outcome; in every other case —
the timeout elapsing first, or the stream ending without a marker — the
timeout message is returned. -/
def eval_wait (b64dec : List Char → Option (List Char))
    (streamLines : List (List Char)) (readerDone : Bool) : Bool × List Char :=
  if readerDone then
    match reader b64dec streamLines [] with
    | (logs, some o) => eval_result logs o
    | (_, none) => (false, timeout_message)
  else (false, timeout_message)

/-- Operations eval performs on the worker process.  The stop path of the
runner issues terminate and kill; eval itself must issue neither. -/
inductive ProcOp
  | write (line : List Char)
  | terminate
  | kill
deriving DecidableEq, Repr

/-- Embeds PersistentJuliaRunner.eval end to end: the restart attempt,
the handle check, the payload shaping and write, and the bounded wait.
The worker output lines and the wait outcome are explicit parameters.
Returns the runner state after the call, the process operations issued,
and the (success, payload) pair. -/
def eval (b64dec : List Char → Option (List Char)) (s : RunnerState) (expr : List Char)
    (streamLines : List (List Char)) (readerDone : Bool) :
    RunnerState × List ProcOp × (Bool × List Char) :=
  let s1 := restart_attempt s
  match s1.proc with
  | none => (s1, [], (false, "Julia process not available".toList))
  | some _ =>
      (s1, [ProcOp.write (written_line expr)], eval_wait b64dec streamLines readerDone)

/-- A runner state whose handle exists but whose subprocess has exited:
poll() returns an exit code, is_alive is False. -/
def dead_handle_state : RunnerState := { proc := some { alive := false } }

/-- A worker protocol line as produced by the bootstrap loop: the marker
for the outcome followed by the base64 text of the payload. -/
def marker_line (ok : Bool) (b : List Char) : List Char :=
  (if ok then RESULT_MARKER else ERROR_MARKER) ++ b

end JuliaRunner

namespace MCPServer

/-- Output channels of the server process. -/
inductive Chan
  | stdout
  | audit_file
deriving DecidableEq, Repr

/-- Atomic operations performed by the emission helpers, at the
granularity of one Python call: lock acquisition and release, one write
call of one string, and a flush. -/
inductive WOp
  | acquireLock (l : String)
  | releaseLock (l : String)
  | writeChunk (c : Chan) (s : String)
  | flush (c : Chan)
deriving DecidableEq, Repr

/-- Embeds the module-level _write helper:
sys.stdout.write(json.dumps(obj) + newline) followed by
sys.stdout.flush().  The serialized JSON text is the parameter; the
helper performs exactly one write call and takes no lock. -/
def write_ops (payload : String) : List WOp :=
  [WOp.writeChunk Chan.stdout (payload ++ "\n"), WOp.flush Chan.stdout]

/-- Embeds AutoCodeMCPServer._emit_stream: it builds the tools/stream
notification object and emits it through _write (then appends an audit
record); its stdout operations are exactly those of _write. -/
def emit_stream_ops (serialized : String) : List WOp := write_ops serialized

/-- Embeds the write path of AutoCodeMCPServer.log: the append to the
audit file is guarded by self._log_lock. -/
def log_write_ops (line : String) : List WOp :=
  [WOp.acquireLock "_log_lock", WOp.writeChunk Chan.audit_file (line ++ "\n"),
    WOp.releaseLock "_log_lock"]

/-- An emission procedure counts as lock-taking when some lock
acquisition appears among its operations. -/
def takes_lock (ops : List WOp) : Prop := ∃ l, WOp.acquireLock l ∈ ops

/-- The per-session record stored in self.active_streams: the advisory
cancellation flag and the tool name.  The wall-clock started timestamp is
not modelled. -/
structure StreamMeta where
  cancel : Bool
  tool : String
deriving DecidableEq, Repr

/-- Embeds the Python dictionary assignment m[k] = v on an association
list: an existing binding is updated in place, a new key is appended at
the end, matching dictionary insertion order. -/
def dict_assign (k : JVal) (v : StreamMeta) : List (JVal × StreamMeta) → List (JVal × StreamMeta)
  | [] => [(k, v)]
  | (k1, v1) :: rest => if k1 = k then (k, v) :: rest else (k1, v1) :: dict_assign k v rest

/-- Embeds m.pop(k, None) on an association list: the binding of k, if
present, is removed. -/
def dict_pop (k : JVal) : List (JVal × StreamMeta) → List (JVal × StreamMeta)
  | [] => []
  | (k1, v1) :: rest => if k1 = k then rest else (k1, v1) :: dict_pop k rest

/-- Embeds the in-place flag update
self.active_streams[call_id][cancel] = True. -/
def set_cancel (k : JVal) (m : List (JVal × StreamMeta)) : List (JVal × StreamMeta) :=
  m.map fun p => if p.1 = k then (p.1, { p.2 with cancel := true }) else p

/-- How a streaming worker thread came to return: the stream handler
completed, raised, or returned after observing the cancellation flag.
The finally block of the runner closure runs in every case. -/
inductive FinishKind
  | completed
  | errored
  | cancelled
deriving DecidableEq, Repr

/-- The observable map events of a streaming session lifecycle: the
insertion performed by _start_stream when the stream starts, and the
removal performed by the finally block of the runner closure when the
background handler returns. -/
inductive StreamEvent
  | start (callId : JVal) (tool : String)
  | finish (callId : JVal) (k : FinishKind)
deriving DecidableEq, Repr

/-- Embeds the effect of one session lifecycle event on
self.active_streams: _start_stream assigns a fresh record with the
cancellation flag cleared; the finally block pops the call id whatever
the outcome was — the finish kind is ignored. -/
def stream_step (m : List (JVal × StreamMeta)) : StreamEvent → List (JVal × StreamMeta)
  | .start cid tool => dict_assign cid { cancel := false, tool := tool } m
  | .finish cid _ => dict_pop cid m

/-- The active-session map after a trace of lifecycle events, starting
from the empty map of server startup. -/
def run_streams (ts : List StreamEvent) : List (JVal × StreamMeta) :=
  ts.foldl stream_step []

/-- The call ids whose background worker is currently active after a
trace: started and not yet finished.  This is the specification-side
notion the map invariant is compared against. -/
def active_after : List JVal → List StreamEvent → List JVal
  | act, [] => act
  | act, .start cid _ :: rest => active_after (cid :: act) rest
  | act, .finish cid _ :: rest => active_after (act.erase cid) rest

/-- Well-formedness of a lifecycle trace relative to the currently active
ids: a worker only starts under a call id that is not currently active,
and only a started worker finishes.  This holds of the source because
_start_stream runs once per accepted streaming call and the finally block
runs once per launched thread. -/
def wf_from : List JVal → List StreamEvent → Bool
  | _, [] => true
  | act, .start cid _ :: rest => !act.contains cid && wf_from (cid :: act) rest
  | act, .finish cid _ :: rest => act.contains cid && wf_from (act.erase cid) rest

/-- The invariant tying the active-session map to the set of currently
active workers: the map keys are unique, the active id list is
duplicate-free, and a lookup succeeds exactly for the active ids. -/
def stream_inv (m : List (JVal × StreamMeta)) (act : List JVal) : Prop :=
  (m.map Prod.fst).Nodup ∧ act.Nodup ∧
    ∀ cid, (List.lookup cid m).isSome = act.contains cid

/-- Outcome of a synchronous tool handler: a returned value, or a raised
exception with its message. -/
inductive HandlerOutcome
  | ok (v : JVal)
  | raise (msg : String)

/-- The external code_db store the tool handlers read and mutate,
abstracted as a JSON-like value. -/
abbrev Store := JVal

/-- A registry entry (class Tool): name, description, the required
argument names of the input schema (the only part dispatch consults),
the synchronous handler, and the streaming capability.  The handler takes
the arguments object and the store and returns its outcome together with
the store as mutated up to the return or the raise. -/
structure Tool where
  name : String
  description : String
  required : List String
  handler : JVal → Store → HandlerOutcome × Store
  streaming : Bool
  has_stream_handler : Bool

/-- The static server configuration: the registered tools.  The registry
is immutable after startup. -/
structure ServerCfg where
  tools : List Tool

/-- The mutable server state: the shutdown flag, the active-session map,
the external store, and the audit log modelled as the list of event kinds
appended so far (record payloads and timestamps are not modelled; a write
failure is swallowed by the source, so the log is best effort). -/
structure ServerState where
  shutdown_flag : Bool
  active_streams : List (JVal × StreamMeta)
  store : Store
  audit : List String
deriving DecidableEq, Repr

/-- Observable side effects of dispatching one request, beyond the state:
whether a synchronous handler ran and whether a background streaming
worker was launched. -/
inductive Effect
  | handler_invoked (tool : String)
  | stream_launched (callId : JVal) (tool : String)
deriving DecidableEq, Repr

/-- Embeds the module-level _error_response helper: the JSON-RPC error
envelope, with the data field present only when given. -/
def error_response (id : JVal) (code : Int) (message : String) (data : Option JVal) : JVal :=
  JVal.objOf [("jsonrpc", JVal.str "2.0"), ("id", id),
    ("error", JVal.objOf ([("code", JVal.num code), ("message", JVal.str message)] ++
      (match data with
       | some d => [("data", d)]
       | none => [])))]

/-- Embeds the module-level _success helper: the JSON-RPC result
envelope. -/
def success (id : JVal) (result : JVal) : JVal :=
  JVal.objOf [("jsonrpc", JVal.str "2.0"), ("id", id), ("result", result)]

/-- The result object returned by the initialize method. -/
def initialize_result : JVal :=
  JVal.objOf [("protocolVersion", JVal.str "2024-11-05"),
    ("serverInfo", JVal.objOf [("name", JVal.str "autocode-mcp"), ("version", JVal.str "0.1.0")]),
    ("capabilities", JVal.objOf [("tools", JVal.objOf [("listChanged", JVal.bool false)])])]

/-- The tool metadata entry served by tools/list.  The input schema is
modelled by its required list, the only part dispatch consults. -/
def tool_meta (t : Tool) : JVal :=
  JVal.objOf [("name", JVal.str t.name), ("description", JVal.str t.description),
    ("inputSchema", JVal.objOf [("required", JVal.arrOf (t.required.map JVal.str))])]

/-- Embeds params = req.get(params) or emptydict. -/
def call_params (req : JVal) : JVal :=
  if truthy (jget req "params") then jget req "params" else JVal.onil

/-- Embeds arguments = params.get(arguments) or emptydict. -/
def call_args (params : JVal) : JVal :=
  if truthy (jget params "arguments") then jget params "arguments" else JVal.onil

/-- Embeds the registry lookup: name not in self.tools, a dictionary
keyed by the tool name strings. -/
def find_tool (cfg : ServerCfg) (nameVal : JVal) : Option Tool :=
  cfg.tools.find? fun t => JVal.str t.name == nameVal

/-- Embeds the required-argument scan: the first name in the required
list of the schema that is missing from the arguments object, if any.
The source returns the invalid-params error for that first name. -/
def first_missing (required : List String) (arguments : JVal) : Option String :=
  required.find? fun r => (arguments.getField r).isNone

/-- Embeds the tools/call branch of handle_request, given the request id
and the params object.  Validation runs before any handler: an unknown
name yields the method-not-found error -32601; a missing required
argument yields the invalid-params error -32602; a stream request for a
non-streaming tool yields -32602; a supported stream request inserts the
session entry (as _start_stream does before launching the thread) and
acknowledges with streaming true; otherwise the synchronous handler runs,
its value is wrapped in the content envelope, and a raised exception is
caught by the outer handler of handle_request and converted to the
-32000 error envelope whose data field carries the traceback text
(abstracted here as the exception message). -/
def tools_call (cfg : ServerCfg) (st : ServerState) (rid : JVal) (params : JVal) :
    ServerState × List Effect × JVal :=
  let nameVal := jget params "name"
  let arguments := call_args params
  let stream_flag := truthy (jget params "stream")
  match find_tool cfg nameVal with
  | none =>
      (st, [], error_response rid (-32601) ("Unknown tool " ++ sq ++ pyStr nameVal ++ sq) none)
  | some tool =>
      match first_missing tool.required arguments with
      | some r =>
          (st, [], error_response rid (-32602) ("Missing required argument " ++ sq ++ r ++ sq) none)
      | none =>
          if stream_flag then
            if !tool.streaming || !tool.has_stream_handler then
              (st, [], error_response rid (-32602)
                ("Tool " ++ sq ++ pyStr nameVal ++ sq ++ " does not support streaming") none)
            else
              ({ st with
                  active_streams :=
                    dict_assign rid { cancel := false, tool := tool.name } st.active_streams,
                  audit := st.audit ++ ["stream_start"] },
                [Effect.stream_launched rid tool.name],
                success rid (JVal.objOf [("streaming", JVal.bool true)]))
          else
            match tool.handler arguments st.store with
            | (HandlerOutcome.ok v, store1) =>
                ({ st with store := store1, audit := st.audit ++ ["tool_call"] },
                  [Effect.handler_invoked tool.name],
                  success rid (JVal.objOf [("content",
                    JVal.arrOf [JVal.objOf [("type", JVal.str "json"), ("json", v)]])]))
            | (HandlerOutcome.raise emsg, store1) =>
                ({ st with store := store1, audit := st.audit ++ ["error"] },
                  [Effect.handler_invoked tool.name],
                  error_response rid (-32000) ("Exception: " ++ emsg) (some (JVal.str emsg)))

/-- Embeds the tools/cancel branch of handle_request: an active call id
gets its cancellation flag set and a cancelled-true result; any other id
gets a cancelled-false result with the not_found reason.  Both results
echo the call id, and neither path waits on the streaming worker. -/
def tools_cancel (st : ServerState) (rid : JVal) (params : JVal) :
    ServerState × List Effect × JVal :=
  let cid := jget params "callId"
  if (List.lookup cid st.active_streams).isSome then
    ({ st with
        active_streams := set_cancel cid st.active_streams,
        audit := st.audit ++ ["stream_cancel"] },
      [], success rid (JVal.objOf [("cancelled", JVal.bool true), ("callId", cid)]))
  else
    (st, [], success rid (JVal.objOf [("cancelled", JVal.bool false),
      ("reason", JVal.str "not_found"), ("callId", cid)]))

/-- Embeds AutoCodeMCPServer.handle_request: the audit record for the
inbound request, then dispatch over the fixed method set, with unknown
methods answered by the -32601 error.  Returns the new state, the
observable effects, and the response value for this request id. -/
def handle_request (cfg : ServerCfg) (st : ServerState) (req : JVal) :
    ServerState × List Effect × JVal :=
  let rid := jget req "id"
  let m := jget req "method"
  let st1 := { st with audit := st.audit ++ ["request"] }
  if m = JVal.str "initialize" then
    (st1, [], success rid initialize_result)
  else if m = JVal.str "shutdown" then
    ({ st1 with shutdown_flag := true }, [], success rid JVal.onil)
  else if m = JVal.str "ping" then
    (st1, [], success rid (JVal.objOf [("pong", JVal.bool true)]))
  else if m = JVal.str "tools/list" then
    (st1, [], success rid (JVal.objOf [("tools", JVal.arrOf (cfg.tools.map tool_meta))]))
  else if m = JVal.str "tools/call" then
    tools_call cfg st1 rid (call_params req)
  else if m = JVal.str "tools/cancel" then
    tools_cancel st1 rid (call_params req)
  else
    (st1, [], error_response rid (-32601) ("Unknown method " ++ sq ++ pyStr m ++ sq) none)

/-- Embeds the batch path of serve: each element of a JSON array request
is dispatched independently in array order, threading the state. -/
def handle_batch (cfg : ServerCfg) : ServerState → JVal → ServerState × List JVal
  | st, JVal.acons r rest =>
      let a := handle_request cfg st r
      let b := handle_batch cfg a.1 rest
      (b.1, a.2.2 :: b.2)
  | st, _ => (st, [])

/-- Embeds the Python str.strip() call of the serve loop: leading and
trailing whitespace characters are removed.  Implemented at character
level so that it evaluates by kernel reduction. -/
def py_strip (s : String) : String :=
  String.mk (((s.toList.dropWhile Char.isWhitespace).reverse.dropWhile
    Char.isWhitespace).reverse)

/-- Embeds AutoCodeMCPServer.serve: one line is read at a time from
standard input; a line that is empty after stripping is skipped with no
response and no audit record; an unparseable line is answered with the
-32700 parse error and audited; an array is dispatched as a batch and
answered with one array response; any other value is dispatched as a
single request.  After writing a response the loop stops when the
shutdown flag is set (the skip and parse-error paths continue directly).
JSON parsing is the stdlib collaborator, abstracted as the parse
parameter.  Returns the final state and the values written to stdout in
order. -/
def serve (cfg : ServerCfg) (parse : String → Option JVal) :
    ServerState → List String → ServerState × List JVal
  | st, [] => (st, [])
  | st, l :: rest =>
    if py_strip l = "" then serve cfg parse st rest
    else
      match parse (py_strip l) with
      | none =>
          let st1 := { st with audit := st.audit ++ ["parse_error"] }
          let next := serve cfg parse st1 rest
          (next.1, error_response JVal.null (-32700) "Parse error" none :: next.2)
      | some req =>
          if is_arr req then
            let a := handle_batch cfg st req
            let st1 := { a.1 with audit := a.1.audit ++ ["batch"] }
            if st1.shutdown_flag then
              ({ st1 with audit := st1.audit ++ ["server_shutdown"] }, [JVal.arrOf a.2])
            else
              let next := serve cfg parse st1 rest
              (next.1, JVal.arrOf a.2 :: next.2)
          else
            let a := handle_request cfg st req
            if a.1.shutdown_flag then
              ({ a.1 with audit := a.1.audit ++ ["server_shutdown"] }, [a.2.2])
            else
              let next := serve cfg parse a.1 rest
              (next.1, a.2.2 :: next.2)

end MCPServer

namespace JuliaRunner

theorem b64char_ne_newline (k : Nat) : b64char k ≠ '\n' := by
  unfold b64char
  by_cases h : k < b64alphabet.length
  · have hmem : b64alphabet.getD k 'A' ∈ b64alphabet := by
      rw [List.getD_eq_getElem _ _ h]
      exact List.getElem_mem h
    have hall : ∀ c ∈ b64alphabet, c ≠ '\n' := by decide
    exact hall _ hmem
  · rw [List.getD_eq_default _ _ (Nat.le_of_not_lt h)]
    decide

theorem b64encode_no_newline : ∀ bs : List Nat, '\n' ∉ b64encode bs
  | [] => by simp [b64encode]
  | [a] => by
      simp [b64encode]
      exact ⟨Ne.symm (b64char_ne_newline _), Ne.symm (b64char_ne_newline _)⟩
  | [a, b] => by
      simp [b64encode]
      exact ⟨Ne.symm (b64char_ne_newline _), Ne.symm (b64char_ne_newline _),
        Ne.symm (b64char_ne_newline _)⟩
  | a :: b :: c :: rest => by
      have ih := b64encode_no_newline rest
      simp [b64encode]
      exact ⟨Ne.symm (b64char_ne_newline _), Ne.symm (b64char_ne_newline _),
        Ne.symm (b64char_ne_newline _), Ne.symm (b64char_ne_newline _), ih⟩

theorem result_marker_self (b : List Char) :
    RESULT_MARKER.isPrefixOf (RESULT_MARKER ++ b) = true := by
  simp [RESULT_MARKER, List.isPrefixOf]

theorem result_marker_of_error (b : List Char) :
    RESULT_MARKER.isPrefixOf (ERROR_MARKER ++ b) = false := by
  simp [RESULT_MARKER, ERROR_MARKER, List.isPrefixOf]

theorem error_marker_self (b : List Char) :
    ERROR_MARKER.isPrefixOf (ERROR_MARKER ++ b) = true := by
  simp [ERROR_MARKER, List.isPrefixOf]

theorem reader_skip (dec : List Char → Option (List Char)) (l : List Char)
    (ls logs : List (List Char))
    (h1 : RESULT_MARKER.isPrefixOf l = false) (h2 : ERROR_MARKER.isPrefixOf l = false) :
    reader dec (l :: ls) logs = reader dec ls (logs ++ [l]) := by
  simp [reader, h1, h2]

theorem reader_marker (dec : List Char → Option (List Char)) (ok : Bool) (b : List Char)
    (ls logs : List (List Char)) :
    reader dec (marker_line ok b :: ls) logs =
      (logs, some { ok := ok, payload := decode_or dec b }) := by
  cases ok
  · rw [marker_line]
    simp only [Bool.false_eq_true, if_false]
    rw [reader, result_marker_of_error, error_marker_self]
    simp [List.drop_left]
  · rw [marker_line]
    simp only [if_true]
    rw [reader, result_marker_self]
    simp [List.drop_left]

theorem reader_captures (dec : List Char → Option (List Char)) (pre : List (List Char))
    (ok : Bool) (b : List Char) (rest : List (List Char))
    (h : ∀ l ∈ pre, RESULT_MARKER.isPrefixOf l = false ∧ ERROR_MARKER.isPrefixOf l = false) :
    ∀ logs, reader dec (pre ++ marker_line ok b :: rest) logs =
      (logs ++ pre, some { ok := ok, payload := decode_or dec b }) := by
  induction pre with
  | nil =>
      intro logs
      simpa using reader_marker dec ok b rest logs
  | cons l pre ih =>
      intro logs
      have hl := h l (List.mem_cons_self l pre)
      rw [List.cons_append, reader_skip dec l _ logs hl.1 hl.2,
        ih (fun x hx => h x (List.mem_cons_of_mem l hx))]
      simp

/-- C4: when the reader thread finishes before the timeout having
observed a marker line, eval returns the captured non-marker lines joined
with newlines when at least one was captured and the marker was RESULT,
and otherwise returns the marker kind together with the decoded marker
payload. -/
theorem c4_reader_result_assembly (dec : List Char → Option (List Char))
    (pre rest : List (List Char)) (ok : Bool) (b : List Char)
    (hpre : ∀ l ∈ pre, RESULT_MARKER.isPrefixOf l = false ∧ ERROR_MARKER.isPrefixOf l = false) :
    eval_wait dec (pre ++ marker_line ok b :: rest) true =
      (if pre ≠ [] ∧ ok = true then (true, List.intercalate ['\n'] pre)
       else (ok, decode_or dec b)) := by
  rw [eval_wait]
  simp only [if_true]
  rw [reader_captures dec pre ok b rest hpre []]
  simp [eval_result]

/-- Witness for C4 at concrete inputs: with one captured line and a
RESULT marker the captured line wins; with no captured line the decoded
payload is returned. -/
theorem c4_witness :
    eval_wait (fun x => if x = "Mg==".toList then some ['2'] else none)
        ([['h', 'i']] ++ marker_line true "Mg==".toList :: []) true = (true, ['h', 'i']) ∧
    eval_wait (fun x => if x = "Mg==".toList then some ['2'] else none)
        ([] ++ marker_line true "Mg==".toList :: []) true = (true, ['2']) := by
  constructor
  · rw [c4_reader_result_assembly (fun x => if x = "Mg==".toList then some ['2'] else none)
      [['h', 'i']] [] true "Mg==".toList (by decide)]
    decide
  · rw [c4_reader_result_assembly (fun x => if x = "Mg==".toList then some ['2'] else none)
      [] [] true "Mg==".toList (by decide)]
    decide

/-- C9: an expression containing a newline or longer than the
800-character threshold is sent as the one-line wrapper embedding the
base64 encoding of the whole expression, and that wrapper line contains
no newline; every other expression is sent unchanged followed by a
newline, keeping the line-oriented framing intact. -/
theorem c9_expression_framing (expr : List Char) :
    (('\n' ∈ expr ∨ 800 < expr.length) →
      send_expr expr = b64_wrap_prefix ++ b64encode (utf8Encode expr) ++ b64_wrap_suffix ∧
      '\n' ∉ send_expr expr ∧
      written_line expr = send_expr expr ++ ['\n']) ∧
    (¬ ('\n' ∈ expr ∨ 800 < expr.length) →
      written_line expr = expr ++ ['\n']) := by
  constructor
  · intro h
    refine ⟨by simp [send_expr, h], ?_, rfl⟩
    simp only [send_expr, if_pos h, List.mem_append]
    push_neg
    exact ⟨⟨by decide, b64encode_no_newline _⟩, by decide⟩
  · intro h
    simp [written_line, send_expr, h]

/-- Witness for C9 at concrete inputs: a two-line expression is wrapped
into the base64 framing line, and a short one-line expression passes
through with a trailing newline. -/
theorem c9_witness :
    ('\n' ∈ ['a', '\n', 'b'] ∨ 800 < (['a', '\n', 'b'] : List Char).length) ∧
    send_expr ['a', '\n', 'b'] = b64_wrap_prefix ++ "YQpi".toList ++ b64_wrap_suffix ∧
    ¬ ('\n' ∈ ['x'] ∨ 800 < (['x'] : List Char).length) ∧
    written_line ['x'] = ['x', '\n'] := by
  refine ⟨by decide, ?_, by decide, (c9_expression_framing ['x']).2 (by decide)⟩
  rw [((c9_expression_framing ['a', '\n', 'b']).1 (by decide)).1]
  decide

/-- C1 (code bug): a call attempted while the process handle exists but
the subprocess has exited does not start a fresh worker — _start_process
returns immediately because self._proc is not None — so eval proceeds
against the dead worker and cannot return the correct result; only a
state with no handle at all is restarted. -/
theorem c1_dead_worker_not_restarted :
    restart_attempt dead_handle_state = dead_handle_state ∧
    is_alive dead_handle_state = false ∧
    (eval (fun _ => none) dead_handle_state ['1', '+', '1'] [] true).1 = dead_handle_state ∧
    (eval (fun _ => none) dead_handle_state ['1', '+', '1'] [] true).2.2 =
      (false, timeout_message) ∧
    (eval (fun _ => none) dead_handle_state ['1', '+', '1'] [] true).2.2 ≠ (true, ['2']) ∧
    start_process { proc := none } = { proc := some { alive := true } } := by
  decide

/-- C3 counterexample: on a timed-out call the payload of the returned
pair is the source literal, which differs from the message the claim
states. -/
theorem c3_counterexample_timeout_message :
    (eval (fun _ => none) { proc := some { alive := true } } ['x'] [] false).2.2 =
      (false, "Timeout waiting for Julia response".toList) ∧
    (eval (fun _ => none) { proc := some { alive := true } } ['x'] [] false).2.2 ≠
      (false, "Timeout waiting for response".toList) := by
  decide

/-- C3 (amended): when the timeout elapses before the reader thread
finishes, eval returns (false, "Timeout waiting for Julia response"),
and the worker process is neither terminated nor killed and its state is
left unchanged, so the worker remains usable for the next call. -/
theorem c3_timeout_leaves_worker_running (dec : List Char → Option (List Char))
    (s : RunnerState) (expr : List Char) (streamLines : List (List Char))
    (halive : is_alive s = true) :
    (eval dec s expr streamLines false).2.2 = (false, timeout_message) ∧
    (eval dec s expr streamLines false).1 = s ∧
    ProcOp.terminate ∉ (eval dec s expr streamLines false).2.1 ∧
    ProcOp.kill ∉ (eval dec s expr streamLines false).2.1 := by
  obtain ⟨p, hp⟩ : ∃ p, s.proc = some p := by
    cases h : s.proc with
    | none => rw [is_alive, h] at halive; cases halive
    | some p => exact ⟨p, rfl⟩
  have hra : restart_attempt s = s := by
    simp [restart_attempt, halive]
  simp [eval, hra, hp, eval_wait]

/-- Witness for C3 (amended) at a concrete live worker state. -/
theorem c3_timeout_witness :
    is_alive { proc := some { alive := true } } = true ∧
    (eval (fun _ => none) { proc := some { alive := true } } ['x'] [['y']] false).2.2 =
      (false, timeout_message) := by
  exact ⟨rfl, (c3_timeout_leaves_worker_running (fun _ => none)
    { proc := some { alive := true } } ['x'] [['y']] rfl).1⟩

end JuliaRunner

namespace MCPServer

theorem lookup_cons (a k : JVal) (b : StreamMeta) (es : List (JVal × StreamMeta)) :
    List.lookup a ((k, b) :: es) = if a = k then some b else List.lookup a es := by
  by_cases h : a = k
  · simp [List.lookup, h]
  · have hb : (a == k) = false := by simp [h]
    simp [List.lookup, hb, h]

theorem contains_eq_decide_mem (a : JVal) (l : List JVal) : l.contains a = decide (a ∈ l) := by
  by_cases h : a ∈ l <;> simp [h]

theorem lookup_eq_none_iff (k : JVal) (m : List (JVal × StreamMeta)) :
    List.lookup k m = none ↔ k ∉ m.map Prod.fst := by
  induction m with
  | nil => simp
  | cons p rest ih =>
      obtain ⟨k1, v1⟩ := p
      rw [lookup_cons]
      by_cases h : k = k1 <;> simp [h, ih]

theorem lookup_dict_assign (x k : JVal) (v : StreamMeta) (m : List (JVal × StreamMeta)) :
    List.lookup x (dict_assign k v m) = if x = k then some v else List.lookup x m := by
  induction m with
  | nil => simp [dict_assign, lookup_cons]
  | cons p rest ih =>
      obtain ⟨k1, v1⟩ := p
      by_cases hk : k1 = k
      · subst hk
        have e1 : dict_assign k1 v ((k1, v1) :: rest) = (k1, v) :: rest := by
          simp [dict_assign]
        rw [e1, lookup_cons, lookup_cons]
        by_cases hx : x = k1 <;> simp [hx]
      · have e1 : dict_assign k v ((k1, v1) :: rest) = (k1, v1) :: dict_assign k v rest := by
          simp [dict_assign, hk]
        rw [e1, lookup_cons, lookup_cons, ih]
        by_cases hx1 : x = k1 <;> by_cases hx2 : x = k <;> simp_all

theorem keys_dict_assign (k : JVal) (v : StreamMeta) (m : List (JVal × StreamMeta)) :
    (dict_assign k v m).map Prod.fst = m.map Prod.fst ∨
    (dict_assign k v m).map Prod.fst = m.map Prod.fst ++ [k] := by
  induction m with
  | nil => right; simp [dict_assign]
  | cons p rest ih =>
      obtain ⟨k1, v1⟩ := p
      by_cases hk : k1 = k
      · left; simp [dict_assign, hk]
      · rcases ih with h | h
        · left; simp [dict_assign, hk, h]
        · right; simp [dict_assign, hk, h]

theorem lookup_dict_pop_ne (x k : JVal) (m : List (JVal × StreamMeta)) (h : x ≠ k) :
    List.lookup x (dict_pop k m) = List.lookup x m := by
  induction m with
  | nil => simp [dict_pop]
  | cons p rest ih =>
      obtain ⟨k1, v1⟩ := p
      by_cases hk : k1 = k
      · subst hk
        simp only [dict_pop, if_pos rfl, lookup_cons]
        simp [h]
      · simp only [dict_pop, if_neg hk, lookup_cons, ih]

theorem lookup_dict_pop_self (k : JVal) (m : List (JVal × StreamMeta))
    (h : (m.map Prod.fst).Nodup) : List.lookup k (dict_pop k m) = none := by
  induction m with
  | nil => simp [dict_pop]
  | cons p rest ih =>
      obtain ⟨k1, v1⟩ := p
      simp only [List.map_cons, List.nodup_cons] at h
      by_cases hk : k1 = k
      · subst hk
        rw [dict_pop, if_pos rfl]
        exact (lookup_eq_none_iff k1 rest).2 h.1
      · rw [dict_pop, if_neg hk, lookup_cons, if_neg (fun hh => hk hh.symm)]
        exact ih h.2

theorem keys_dict_pop_sublist (k : JVal) (m : List (JVal × StreamMeta)) :
    List.Sublist ((dict_pop k m).map Prod.fst) (m.map Prod.fst) := by
  induction m with
  | nil => simp [dict_pop]
  | cons p rest ih =>
      obtain ⟨k1, v1⟩ := p
      by_cases hk : k1 = k
      · have e1 : dict_pop k ((k1, v1) :: rest) = rest := by
          simp [dict_pop, hk]
        rw [e1, List.map_cons]
        exact List.sublist_cons_self _ _
      · have e1 : dict_pop k ((k1, v1) :: rest) = (k1, v1) :: dict_pop k rest := by
          simp [dict_pop, hk]
        rw [e1, List.map_cons, List.map_cons]
        exact ih.cons₂ k1

theorem stream_inv_steps (ts : List StreamEvent) :
    ∀ (m : List (JVal × StreamMeta)) (act : List JVal),
      stream_inv m act → wf_from act ts = true →
      stream_inv (ts.foldl stream_step m) (active_after act ts) := by
  induction ts with
  | nil =>
      intro m act h _
      simpa [active_after] using h
  | cons e rest ih =>
      intro m act h hwf
      obtain ⟨hm, hact, hlk⟩ := h
      cases e with
      | start cid tool =>
          simp only [wf_from, Bool.and_eq_true, Bool.not_eq_true'] at hwf
          obtain ⟨h1, h2⟩ := hwf
          have hnone : List.lookup cid m = none := by
            cases e : List.lookup cid m with
            | none => rfl
            | some v0 =>
                have h3 := hlk cid
                rw [e, h1] at h3
                simp at h3
          have hnm : cid ∉ m.map Prod.fst := (lookup_eq_none_iff cid m).1 hnone
          have hna : cid ∉ act := by
            intro hmem
            rw [contains_eq_decide_mem] at h1
            simp [hmem] at h1
          rw [List.foldl_cons]
          simp only [active_after]
          apply ih
          · refine ⟨?_, ?_, ?_⟩
            · rcases keys_dict_assign cid { cancel := false, tool := tool } m with hk | hk <;>
                rw [stream_step, hk]
              · exact hm
              · rw [List.nodup_append]
                refine ⟨hm, List.nodup_singleton _, ?_⟩
                intro a ha hb
                simp only [List.mem_singleton] at hb
                subst hb
                exact hnm ha
            · exact List.nodup_cons.2 ⟨hna, hact⟩
            · intro x
              rw [stream_step, lookup_dict_assign, contains_eq_decide_mem]
              by_cases hx : x = cid
              · simp [hx]
              · simp only [if_neg hx]
                rw [hlk x, contains_eq_decide_mem]
                simp [hx]
          · exact h2
      | finish cid k =>
          simp only [wf_from, Bool.and_eq_true] at hwf
          obtain ⟨h1, h2⟩ := hwf
          rw [List.foldl_cons]
          simp only [active_after]
          apply ih
          · refine ⟨?_, hact.erase cid, ?_⟩
            · exact hm.sublist (keys_dict_pop_sublist cid m)
            · intro x
              by_cases hx : x = cid
              · subst hx
                rw [stream_step, lookup_dict_pop_self x m hm, contains_eq_decide_mem]
                simp [hact.not_mem_erase]
              · rw [stream_step, lookup_dict_pop_ne x cid m hx, hlk x,
                  contains_eq_decide_mem, contains_eq_decide_mem]
                simp [List.mem_erase_of_ne hx]
          · exact h2

/-- C5: over any well-formed trace of streaming-session lifecycle events,
a call id has an entry in the active-session map exactly when its
background worker is currently active; the entry inserted at stream start
carries a cleared cancellation flag, and the finally-block removal
deletes the entry for every finish outcome — completion, error, or
cancellation alike. -/
theorem c5_session_map_iff_worker_active (ts : List StreamEvent)
    (hwf : wf_from [] ts = true) :
    (∀ cid, (List.lookup cid (run_streams ts)).isSome = (active_after [] ts).contains cid) ∧
    (∀ (m : List (JVal × StreamMeta)) (cid : JVal) (tool : String),
      List.lookup cid (stream_step m (StreamEvent.start cid tool)) =
        some { cancel := false, tool := tool }) ∧
    (∀ (m : List (JVal × StreamMeta)) (cid : JVal) (k : FinishKind),
      (m.map Prod.fst).Nodup →
      List.lookup cid (stream_step m (StreamEvent.finish cid k)) = none) := by
  refine ⟨?_, ?_, ?_⟩
  · have h := stream_inv_steps ts [] [] ⟨by simp, List.nodup_nil, by simp⟩ hwf
    exact h.2.2
  · intro m cid tool
    rw [stream_step, lookup_dict_assign, if_pos rfl]
  · intro m cid k hm
    rw [stream_step, lookup_dict_pop_self cid m hm]

/-- Witness for C5 on a concrete trace: after one session starts,
finishes by cancellation, and a second session starts, the first id is
gone from the map and the second is present, matching the active set. -/
theorem c5_witness :
    wf_from [] [StreamEvent.start (JVal.num 1) "a", StreamEvent.finish (JVal.num 1)
      FinishKind.cancelled, StreamEvent.start (JVal.num 2) "b"] = true ∧
    (List.lookup (JVal.num 1) (run_streams [StreamEvent.start (JVal.num 1) "a",
      StreamEvent.finish (JVal.num 1) FinishKind.cancelled,
      StreamEvent.start (JVal.num 2) "b"])).isSome =
      (active_after [] [StreamEvent.start (JVal.num 1) "a",
        StreamEvent.finish (JVal.num 1) FinishKind.cancelled,
        StreamEvent.start (JVal.num 2) "b"]).contains (JVal.num 1) ∧
    (List.lookup (JVal.num 2) (run_streams [StreamEvent.start (JVal.num 1) "a",
      StreamEvent.finish (JVal.num 1) FinishKind.cancelled,
      StreamEvent.start (JVal.num 2) "b"])).isSome =
      (active_after [] [StreamEvent.start (JVal.num 1) "a",
        StreamEvent.finish (JVal.num 1) FinishKind.cancelled,
        StreamEvent.start (JVal.num 2) "b"]).contains (JVal.num 2) := by
  refine ⟨by decide, ?_, ?_⟩
  · exact (c5_session_map_iff_worker_active _ (by decide)).1 (JVal.num 1)
  · exact (c5_session_map_iff_worker_active _ (by decide)).1 (JVal.num 2)

/-- C2 counterexample: the outbound stdout writer takes no lock at all —
there is no mutex and no dedicated writer thread in the emission path —
so the writes are not serialized by the program. -/
theorem c2_counterexample_no_writer_lock : ¬ takes_lock (write_ops "x") := by
  rintro ⟨l, hl⟩
  simp [write_ops] at hl

/-- C2 (amended): every stream notification is emitted through the one
module-level _write helper, which emits the serialized JSON value as a
single newline-terminated chunk in one write call followed by one flush
and acquires no lock; only the audit-file writer is lock-guarded.
Line atomicity therefore rests on the single write call, not on any
program-level serialization of concurrent writers. -/
theorem c2_single_unlocked_write (payload : String) :
    emit_stream_ops payload = write_ops payload ∧
    write_ops payload = [WOp.writeChunk Chan.stdout (payload ++ "\n"), WOp.flush Chan.stdout] ∧
    (∀ op ∈ write_ops payload, ∀ l, op ≠ WOp.acquireLock l) ∧
    takes_lock (log_write_ops payload) := by
  refine ⟨rfl, rfl, ?_, ⟨"_log_lock", by simp [log_write_ops]⟩⟩
  intro op hop l
  simp only [write_ops, List.mem_cons, List.not_mem_nil, or_false] at hop
  rcases hop with h | h <;> simp [h]

/-- C6: a tools/call naming an unknown tool is answered with the
method-not-found error code -32601, and a known tool with a missing
schema-required argument is answered with the invalid-params error code
-32602; in both cases the store, the session map and the shutdown flag
are untouched, no effect is produced, and the handler is never
invoked. -/
theorem c6_tools_call_validation (cfg : ServerCfg) (st : ServerState) (req : JVal)
    (hm : jget req "method" = JVal.str "tools/call") :
    (find_tool cfg (jget (call_params req) "name") = none →
      handle_request cfg st req =
        ({ st with audit := st.audit ++ ["request"] }, [],
          error_response (jget req "id") (-32601)
            ("Unknown tool " ++ sq ++ pyStr (jget (call_params req) "name") ++ sq) none)) ∧
    (∀ tool r, find_tool cfg (jget (call_params req) "name") = some tool →
      first_missing tool.required (call_args (call_params req)) = some r →
      handle_request cfg st req =
        ({ st with audit := st.audit ++ ["request"] }, [],
          error_response (jget req "id") (-32602)
            ("Missing required argument " ++ sq ++ r ++ sq) none)) := by
  constructor
  · intro hnone
    simp [handle_request, hm, tools_call, hnone]
  · intro tool r hsome hmiss
    simp [handle_request, hm, tools_call, hsome, hmiss]

/-- Witness for C6 at concrete requests: an unknown tool name and a
registered tool missing its required argument, against a one-tool
registry. -/
theorem c6_witness :
    handle_request
        { tools := [
          { name := "add", description := "d", required := ["x"],
            handler := fun _ s => (HandlerOutcome.ok JVal.null, s),
            streaming := false, has_stream_handler := false }] }
        { shutdown_flag := false, active_streams := [], store := JVal.onil, audit := [] }
        (JVal.objOf [("id", JVal.num 7), ("method", JVal.str "tools/call"),
          ("params", JVal.objOf [("name", JVal.str "nope")])]) =
      ({ shutdown_flag := false, active_streams := [], store := JVal.onil,
         audit := ["request"] }, [],
        error_response (JVal.num 7) (-32601)
          ("Unknown tool " ++ sq ++ "nope" ++ sq) none) ∧
    handle_request
        { tools := [
          { name := "add", description := "d", required := ["x"],
            handler := fun _ s => (HandlerOutcome.ok JVal.null, s),
            streaming := false, has_stream_handler := false }] }
        { shutdown_flag := false, active_streams := [], store := JVal.onil, audit := [] }
        (JVal.objOf [("id", JVal.num 8), ("method", JVal.str "tools/call"),
          ("params", JVal.objOf [("name", JVal.str "add")])]) =
      ({ shutdown_flag := false, active_streams := [], store := JVal.onil,
         audit := ["request"] }, [],
        error_response (JVal.num 8) (-32602)
          ("Missing required argument " ++ sq ++ "x" ++ sq) none) := by
  constructor
  · exact (c6_tools_call_validation
      { tools := [
        { name := "add", description := "d", required := ["x"],
          handler := fun _ s => (HandlerOutcome.ok JVal.null, s),
          streaming := false, has_stream_handler := false }] }
      { shutdown_flag := false, active_streams := [], store := JVal.onil, audit := [] }
      (JVal.objOf [("id", JVal.num 7), ("method", JVal.str "tools/call"),
        ("params", JVal.objOf [("name", JVal.str "nope")])]) rfl).1 rfl
  · exact (c6_tools_call_validation
      { tools := [
        { name := "add", description := "d", required := ["x"],
          handler := fun _ s => (HandlerOutcome.ok JVal.null, s),
          streaming := false, has_stream_handler := false }] }
      { shutdown_flag := false, active_streams := [], store := JVal.onil, audit := [] }
      (JVal.objOf [("id", JVal.num 8), ("method", JVal.str "tools/call"),
        ("params", JVal.objOf [("name", JVal.str "add")])]) rfl).2
      { name := "add", description := "d", required := ["x"],
        handler := fun _ s => (HandlerOutcome.ok JVal.null, s),
        streaming := false, has_stream_handler := false } "x" rfl rfl

theorem lookup_set_cancel (k : JVal) (m : List (JVal × StreamMeta)) (meta : StreamMeta)
    (h : List.lookup k m = some meta) :
    List.lookup k (set_cancel k m) = some { meta with cancel := true } := by
  induction m with
  | nil => simp at h
  | cons p rest ih =>
      obtain ⟨k1, v1⟩ := p
      rw [lookup_cons] at h
      by_cases hk : k = k1
      · rw [if_pos hk] at h
        obtain rfl : v1 = meta := by injection h
        simp only [set_cancel, List.map_cons]
        rw [if_pos hk.symm, lookup_cons, if_pos hk]
      · rw [if_neg hk] at h
        simp only [set_cancel, List.map_cons]
        rw [if_neg (fun hh => hk hh.symm), lookup_cons, if_neg hk]
        exact ih h

/-- C7 counterexample: cancelling an id that is not an active session
returns a result that additionally echoes the callId, so the result is
not exactly the two-field object the claim states. -/
theorem c7_counterexample_cancel_result_shape :
    (handle_request { tools := [] }
        { shutdown_flag := false, active_streams := [], store := JVal.onil, audit := [] }
        (JVal.objOf [("id", JVal.num 1), ("method", JVal.str "tools/cancel"),
          ("params", JVal.objOf [("callId", JVal.num 5)])])).2.2 =
      success (JVal.num 1) (JVal.objOf [("cancelled", JVal.bool false),
        ("reason", JVal.str "not_found"), ("callId", JVal.num 5)]) ∧
    (handle_request { tools := [] }
        { shutdown_flag := false, active_streams := [], store := JVal.onil, audit := [] }
        (JVal.objOf [("id", JVal.num 1), ("method", JVal.str "tools/cancel"),
          ("params", JVal.objOf [("callId", JVal.num 5)])])).2.2 ≠
      success (JVal.num 1) (JVal.objOf [("cancelled", JVal.bool false),
        ("reason", JVal.str "not_found")]) := by
  constructor <;> decide

/-- C7 (amended): tools/cancel on an active call id sets that session
cancellation flag and answers with cancelled true plus the echoed
callId; on any other id it answers cancelled false with reason not_found
plus the echoed callId; both paths produce no effect and are plain state
updates that never wait on the streaming handler. -/
theorem c7_cancel_semantics (cfg : ServerCfg) (st : ServerState) (req : JVal)
    (hm : jget req "method" = JVal.str "tools/cancel") :
    (∀ meta, List.lookup (jget (call_params req) "callId") st.active_streams = some meta →
      handle_request cfg st req =
        ({ st with
            active_streams := set_cancel (jget (call_params req) "callId") st.active_streams,
            audit := st.audit ++ ["request", "stream_cancel"] }, [],
          success (jget req "id") (JVal.objOf [("cancelled", JVal.bool true),
            ("callId", jget (call_params req) "callId")])) ∧
      List.lookup (jget (call_params req) "callId")
          (set_cancel (jget (call_params req) "callId") st.active_streams) =
        some { meta with cancel := true }) ∧
    (List.lookup (jget (call_params req) "callId") st.active_streams = none →
      handle_request cfg st req =
        ({ st with audit := st.audit ++ ["request"] }, [],
          success (jget req "id") (JVal.objOf [("cancelled", JVal.bool false),
            ("reason", JVal.str "not_found"), ("callId", jget (call_params req) "callId")]))) := by
  constructor
  · intro meta hfound
    refine ⟨?_, lookup_set_cancel _ _ _ hfound⟩
    simp [handle_request, hm, tools_cancel, hfound]
  · intro hnone
    simp [handle_request, hm, tools_cancel, hnone]

/-- Witness for C7 (amended) at concrete states: one active session that
gets its flag set, and a lookup miss answered with not_found. -/
theorem c7_witness :
    handle_request { tools := [] }
        { shutdown_flag := false,
          active_streams := [(JVal.num 5, { cancel := false, tool := "t" })],
          store := JVal.onil, audit := [] }
        (JVal.objOf [("id", JVal.num 2), ("method", JVal.str "tools/cancel"),
          ("params", JVal.objOf [("callId", JVal.num 5)])]) =
      ({ shutdown_flag := false,
          active_streams := [(JVal.num 5, { cancel := true, tool := "t" })],
          store := JVal.onil, audit := ["request", "stream_cancel"] }, [],
        success (JVal.num 2) (JVal.objOf [("cancelled", JVal.bool true),
          ("callId", JVal.num 5)])) ∧
    handle_request { tools := [] }
        { shutdown_flag := false, active_streams := [], store := JVal.onil, audit := [] }
        (JVal.objOf [("id", JVal.num 3), ("method", JVal.str "tools/cancel"),
          ("params", JVal.objOf [("callId", JVal.num 9)])]) =
      ({ shutdown_flag := false, active_streams := [], store := JVal.onil,
          audit := ["request"] }, [],
        success (JVal.num 3) (JVal.objOf [("cancelled", JVal.bool false),
          ("reason", JVal.str "not_found"), ("callId", JVal.num 9)])) := by
  constructor
  · exact ((c7_cancel_semantics { tools := [] }
      { shutdown_flag := false,
        active_streams := [(JVal.num 5, { cancel := false, tool := "t" })],
        store := JVal.onil, audit := [] }
      (JVal.objOf [("id", JVal.num 2), ("method", JVal.str "tools/cancel"),
        ("params", JVal.objOf [("callId", JVal.num 5)])]) rfl).1
      { cancel := false, tool := "t" } rfl).1
  · exact (c7_cancel_semantics { tools := [] }
      { shutdown_flag := false, active_streams := [], store := JVal.onil, audit := [] }
      (JVal.objOf [("id", JVal.num 3), ("method", JVal.str "tools/cancel"),
        ("params", JVal.objOf [("callId", JVal.num 9)])]) rfl).2 rfl

/-- C8: a synchronous tools/call whose handler raises is answered with
the structured -32000 error envelope correlated to the request id — the
dispatcher catches the exception instead of crashing — and the serve
loop goes on to process the remaining input lines, so every request
still receives a response. -/
theorem c8_handler_exception_contained (cfg : ServerCfg) (st : ServerState) (req : JVal)
    (tool : Tool) (emsg : String) (store1 : Store)
    (hm : jget req "method" = JVal.str "tools/call")
    (hfind : find_tool cfg (jget (call_params req) "name") = some tool)
    (hmiss : first_missing tool.required (call_args (call_params req)) = none)
    (hstream : truthy (jget (call_params req) "stream") = false)
    (hraise : tool.handler (call_args (call_params req)) st.store =
      (HandlerOutcome.raise emsg, store1)) :
    handle_request cfg st req =
      ({ st with store := store1, audit := st.audit ++ ["request", "error"] },
        [Effect.handler_invoked tool.name],
        error_response (jget req "id") (-32000) ("Exception: " ++ emsg)
          (some (JVal.str emsg))) ∧
    (∀ (parse : String → Option JVal) (l : String) (rest : List String),
      py_strip l ≠ "" → parse (py_strip l) = some req → is_arr req = false →
      st.shutdown_flag = false →
      serve cfg parse st (l :: rest) =
        ((serve cfg parse
            { st with store := store1, audit := st.audit ++ ["request", "error"] } rest).1,
          error_response (jget req "id") (-32000) ("Exception: " ++ emsg)
            (some (JVal.str emsg)) ::
            (serve cfg parse
              { st with store := store1, audit := st.audit ++ ["request", "error"] } rest).2)) := by
  have hhr : handle_request cfg st req =
      ({ st with store := store1, audit := st.audit ++ ["request", "error"] },
        [Effect.handler_invoked tool.name],
        error_response (jget req "id") (-32000) ("Exception: " ++ emsg)
          (some (JVal.str emsg))) := by
    simp [handle_request, hm, tools_call, hfind, hmiss, hstream, hraise]
  refine ⟨hhr, ?_⟩
  intro parse l rest hl hp harr hsd
  simp only [serve, if_neg hl, hp, harr, hhr, Bool.false_eq_true, if_false, hsd]

/-- Witness for C8 at a concrete request against a one-tool registry
whose handler always raises. -/
theorem c8_witness :
    handle_request
        { tools := [
          { name := "boom", description := "d", required := ["x"],
            handler := fun _ s => (HandlerOutcome.raise "fail", s),
            streaming := false, has_stream_handler := false }] }
        { shutdown_flag := false, active_streams := [], store := JVal.onil, audit := [] }
        (JVal.objOf [("id", JVal.num 3), ("method", JVal.str "tools/call"),
          ("params", JVal.objOf [("name", JVal.str "boom"),
            ("arguments", JVal.objOf [("x", JVal.num 1)])])]) =
      ({ shutdown_flag := false, active_streams := [], store := JVal.onil,
         audit := ["request", "error"] },
        [Effect.handler_invoked "boom"],
        error_response (JVal.num 3) (-32000) ("Exception: " ++ "fail")
          (some (JVal.str "fail"))) := by
  exact (c8_handler_exception_contained
    { tools := [
      { name := "boom", description := "d", required := ["x"],
        handler := fun _ s => (HandlerOutcome.raise "fail", s),
        streaming := false, has_stream_handler := false }] }
    { shutdown_flag := false, active_streams := [], store := JVal.onil, audit := [] }
    (JVal.objOf [("id", JVal.num 3), ("method", JVal.str "tools/call"),
      ("params", JVal.objOf [("name", JVal.str "boom"),
        ("arguments", JVal.objOf [("x", JVal.num 1)])])])
    { name := "boom", description := "d", required := ["x"],
      handler := fun _ s => (HandlerOutcome.raise "fail", s),
      streaming := false, has_stream_handler := false }
    "fail" JVal.onil rfl rfl rfl rfl rfl).1

/-- C10: a stdin line that is empty or whitespace-only after stripping
produces no response and no audit record, and the serve loop simply
continues with the remaining lines. -/
theorem c10_blank_line_skipped (cfg : ServerCfg) (parse : String → Option JVal)
    (st : ServerState) (l : String) (rest : List String) (h : py_strip l = "") :
    serve cfg parse st (l :: rest) = serve cfg parse st rest := by
  simp only [serve]
  rw [if_pos h]

/-- Witness for C10: a whitespace-only line against the empty registry
yields no output and leaves the state untouched. -/
theorem c10_witness :
    serve { tools := [] } (fun _ => none)
        { shutdown_flag := false, active_streams := [], store := JVal.onil, audit := [] }
        ["  "] =
      ({ shutdown_flag := false, active_streams := [], store := JVal.onil, audit := [] },
        []) := by
  rw [c10_blank_line_skipped { tools := [] } (fun _ => none) _ "  " [] (by decide)]
  rfl

end MCPServer

end AutoCode
